import Mathlib

/-
  Verification of the OPD Token Allocation Engine.

  Shallow embedding of the core engine (src/app): models, priority
  resolution, per-slot waitlists, allocation and reallocation services,
  plus the service wiring of src/app/api/routes.py.

  Modelling conventions:
  - entity ids (TKN.../SLOT.../PAT.../DOC...) are Nat, drawn from a
    monotone counter (the source derives them from wall-clock timestamps;
    only freshness is observable);
  - clock times ("HH:MM" strings in the source) are minutes since
    midnight as Int; Token.calculate_estimated_time parses the slot start
    and adds (position - 1) * AVERAGE_CONSULTATION_MINUTES minutes, which
    is exactly the Int computation below;
  - datetime.now() timestamps used for waitlist arrival order are a
    monotone Nat clock threaded through the state;
  - Python dicts are association lists (insertion order preserved, as in
    CPython); writing an existing key keeps its position, a new key is
    appended;
  - Python exceptions (ValueError with a message) are an Err enumeration
    of the message families; an operation returns its final state next to
    the result, so a raise that happens after a mutation keeps the
    mutation, exactly like the source;
  - audit-only fields (Token.notes, created_at/updated_at) are omitted:
    no engine decision reads them.
-/

namespace OPD

/-- Token status strings from config.TOKEN_STATUS. -/
inductive Status where
  | CONFIRMED
  | WAITLISTED
  | CANCELLED
  | NO_SHOW
  | COMPLETED
deriving DecidableEq, Repr

/-- Families of ValueError messages raised by the engine, plus the two
runtime errors reachable in allocate_emergency_token (max() on an empty
sequence, attribute access on a missing token). -/
inductive Err where
  | InvalidSource
  | DoctorNotFound
  | SlotNotFound
  | TokenNotFound
  | InvalidTransition
  | MaxOfEmptySeq
  | LookupFailed
deriving DecidableEq, Repr

/-- app/models/patient.py: Patient. -/
structure Patient where
  id : Nat
  name : String
  phone : String
  age : Nat
  gender : String
deriving DecidableEq, Repr

/-- app/models/token.py: Token (audit fields omitted, see header). -/
structure Token where
  id : Nat
  token_number : Option Int
  patient_id : Nat
  doctor_id : Nat
  slot_id : Nat
  source : String
  priority : Int
  status : Status
  estimated_time : Option Int
deriving DecidableEq, Repr

/-- app/models/time_slot.py: TimeSlot. -/
structure TimeSlot where
  id : Nat
  doctor_id : Nat
  start_time : Int
  end_time : Int
  date : Nat
  max_capacity : Int
  allocated_count : Int
  tokens : List Nat
  waitlist : List Nat
deriving DecidableEq, Repr

/-- One entry of a QueueManager waitlist (token_id, priority, timestamp). -/
structure WEntry where
  token_id : Nat
  priority : Int
  timestamp : Nat
deriving DecidableEq, Repr

/-- app/core/queue_manager.py: QueueManager (waitlists dict). -/
structure QueueManager where
  waitlists : List (Nat × List WEntry)
deriving DecidableEq, Repr

/-- Patient payload of an allocation request. -/
structure PatientData where
  name : String
  phone : String
  age : Nat
  gender : String
deriving DecidableEq, Repr

/-- Association list with Python-dict semantics: lookup by key. -/
def alGet {α : Type} : List (Nat × α) → Nat → Option α
  | [], _ => none
  | p :: rest, k => if p.1 = k then some p.2 else alGet rest k

/-- Association list with Python-dict semantics: write keeps the position
of an existing key and appends a new key. -/
def alSet {α : Type} : List (Nat × α) → Nat → α → List (Nat × α)
  | [], k, v => [(k, v)]
  | p :: rest, k, v => if p.1 = k then (k, v) :: rest else p :: alSet rest k v

/-- app/utils/data_store.py: the DataStore singleton. Doctors are kept as
their ids: the engine only ever tests presence. -/
structure DataStore where
  doctors : List Nat
  time_slots : List (Nat × TimeSlot)
  tokens : List (Nat × Token)
  patients : List (Nat × Patient)
deriving DecidableEq, Repr

def DataStore.get_doctor (st : DataStore) (did : Nat) : Bool :=
  st.doctors.contains did

def DataStore.get_time_slot (st : DataStore) (sid : Nat) : Option TimeSlot :=
  alGet st.time_slots sid

def DataStore.get_token (st : DataStore) (tid : Nat) : Option Token :=
  alGet st.tokens tid

def DataStore.get_patient (st : DataStore) (pid : Nat) : Option Patient :=
  alGet st.patients pid

/-- data_store.find_slot_by_time: first slot (dict order) matching
doctor, date and start time. -/
def DataStore.find_slot_by_time (st : DataStore) (did date : Nat) (t : Int) :
    Option TimeSlot :=
  (st.time_slots.find? (fun p =>
    p.2.doctor_id == did && p.2.date == date && p.2.start_time == t)).map
    (fun p => p.2)

/-- data_store.find_patient_by_phone: first patient with that phone. -/
def DataStore.find_patient_by_phone (st : DataStore) (phone : String) :
    Option Patient :=
  (st.patients.find? (fun p => p.2.phone == phone)).map (fun p => p.2)

def DataStore.add_token (st : DataStore) (t : Token) : DataStore :=
  { st with tokens := alSet st.tokens t.id t }

def DataStore.add_patient (st : DataStore) (p : Patient) : DataStore :=
  { st with patients := alSet st.patients p.id p }

def DataStore.set_slot (st : DataStore) (sl : TimeSlot) : DataStore :=
  { st with time_slots := alSet st.time_slots sl.id sl }

/-- config.Config.AVERAGE_CONSULTATION_MINUTES. -/
def AVERAGE_CONSULTATION_MINUTES : Int := 5

/-- config.Config.PRIORITY_LEVELS. -/
def PRIORITY_LEVELS (s : String) : Option Int :=
  if s = "EMERGENCY" then some 1
  else if s = "PAID_PRIORITY" then some 2
  else if s = "FOLLOW_UP" then some 3
  else if s = "ONLINE_BOOKING" then some 4
  else if s = "WALK_IN" then some 5
  else none

/-- config.Config.TOKEN_SOURCES. -/
def TOKEN_SOURCES : List String :=
  ["EMERGENCY", "PAID_PRIORITY", "FOLLOW_UP", "ONLINE_BOOKING", "WALK_IN"]

/-- priority_manager.PriorityManager.get_priority_for_source:
dict .get with default 999, never fails. -/
def get_priority_for_source (s : String) : Int :=
  (PRIORITY_LEVELS s).getD 999

/-- priority_manager.PriorityManager.validate_source. -/
def validate_source (s : String) : Bool :=
  TOKEN_SOURCES.contains s

/-- priority_manager.PriorityManager.should_demote. -/
def should_demote (existing_priority new_priority : Int) : Bool :=
  new_priority < existing_priority

/-- The sort key order of queue_manager._sort_waitlist: lexicographic on
(priority, timestamp). -/
def keyLe (e f : WEntry) : Prop :=
  e.priority < f.priority ∨ (e.priority = f.priority ∧ e.timestamp ≤ f.timestamp)

instance : DecidableRel keyLe := fun e f => by
  unfold keyLe
  infer_instance

instance : IsTotal WEntry keyLe := by
  constructor
  intro a b
  unfold keyLe
  omega

instance : IsTrans WEntry keyLe := by
  constructor
  intro a b c hab hbc
  unfold keyLe at hab hbc ⊢
  omega

/-- queue_manager._sort_waitlist: CPython list.sort is a stable sort by
the key (priority, timestamp); a stable sort by a total preorder has a
unique result, so insertion sort by the same key computes it. -/
def sortWaitlist (l : List WEntry) : List WEntry :=
  List.insertionSort keyLe l

def QueueManager.empty : QueueManager := ⟨[]⟩

/-- queue_manager.QueueManager.add_to_waitlist: append an entry stamped
with the current time, re-sort, and return the 1-indexed position of the
first entry carrying this token id (falling back to the length). -/
def QueueManager.add_to_waitlist (qm : QueueManager) (slot_id tid : Nat)
    (priority : Int) (now : Nat) : QueueManager × Nat :=
  let cur := (alGet qm.waitlists slot_id).getD []
  let sorted := sortWaitlist (cur ++ [⟨tid, priority, now⟩])
  let pos := ((sorted.findIdx? (fun e => e.token_id == tid)).map
    (fun i => i + 1)).getD sorted.length
  (⟨alSet qm.waitlists slot_id sorted⟩, pos)

/-- queue_manager.QueueManager.remove_from_waitlist. -/
def QueueManager.remove_from_waitlist (qm : QueueManager) (slot_id tid : Nat) :
    QueueManager × Bool :=
  match alGet qm.waitlists slot_id with
  | none => (qm, false)
  | some l =>
      (⟨alSet qm.waitlists slot_id (l.filter (fun e => ¬ e.token_id = tid))⟩, true)

/-- queue_manager.QueueManager.get_next_from_waitlist. -/
def QueueManager.get_next_from_waitlist (qm : QueueManager) (slot_id : Nat) :
    Option Nat :=
  match alGet qm.waitlists slot_id with
  | none => none
  | some [] => none
  | some (e :: _) => some e.token_id

/-- queue_manager.QueueManager.get_waitlist_position. -/
def QueueManager.get_waitlist_position (qm : QueueManager) (slot_id tid : Nat) :
    Option Nat :=
  match alGet qm.waitlists slot_id with
  | none => none
  | some l => (l.findIdx? (fun e => e.token_id == tid)).map (fun i => i + 1)

/-- time_slot.TimeSlot.is_full. -/
def TimeSlot.is_full (sl : TimeSlot) : Bool :=
  sl.allocated_count ≥ sl.max_capacity

/-- time_slot.TimeSlot.available_count. -/
def TimeSlot.available_count (sl : TimeSlot) : Int :=
  sl.max_capacity - sl.allocated_count

/-- time_slot.TimeSlot.add_token: append to the confirmed list only while
under capacity. -/
def TimeSlot.add_token (sl : TimeSlot) (tid : Nat) : TimeSlot × Bool :=
  if sl.allocated_count < sl.max_capacity then
    ({ sl with tokens := sl.tokens ++ [tid],
               allocated_count := sl.allocated_count + 1 }, true)
  else (sl, false)

/-- time_slot.TimeSlot.remove_token: list.remove drops the first
occurrence and frees one unit of capacity. -/
def TimeSlot.remove_token (sl : TimeSlot) (tid : Nat) : TimeSlot × Bool :=
  if sl.tokens.contains tid then
    ({ sl with tokens := sl.tokens.erase tid,
               allocated_count := sl.allocated_count - 1 }, true)
  else (sl, false)

/-- time_slot.TimeSlot.add_to_waitlist. -/
def TimeSlot.add_to_waitlist (sl : TimeSlot) (tid : Nat) : TimeSlot × Bool :=
  if sl.waitlist.contains tid then (sl, false)
  else ({ sl with waitlist := sl.waitlist ++ [tid] }, true)

/-- time_slot.TimeSlot.remove_from_waitlist. -/
def TimeSlot.remove_from_waitlist (sl : TimeSlot) (tid : Nat) : TimeSlot × Bool :=
  if sl.waitlist.contains tid then
    ({ sl with waitlist := sl.waitlist.erase tid }, true)
  else (sl, false)

/-- token.Token.calculate_estimated_time: slot start plus
(position - 1) * AVERAGE_CONSULTATION_MINUTES. -/
def calc_estimated_time (slot_start : Int) (position : Int) : Int :=
  slot_start + (position - 1) * AVERAGE_CONSULTATION_MINUTES

/-
  The source mutates slot and token objects in place and the store
  aliases them; the model writes the updated object back under its id
  field and re-reads it where the source relies on aliasing. The two
  agree on stores whose slots and tokens are keyed by their own id field,
  which holds for every store the engine itself builds.
-/

/-- The state owned by one service instance: the (singleton) DataStore,
this instance's private QueueManager, the wall clock and the id source. -/
structure SrvState where
  store : DataStore
  qm : QueueManager
  clock : Nat
  nextId : Nat
deriving DecidableEq, Repr

/-- The status_message strings returned by the allocation service, with
their embedded data. -/
inductive AllocOutcome where
  | confirmed
  | waitlisted (position : Nat)
  | emergencyConfirmed (demoted : Option Nat)
  | emergencyWaitlisted (position : Nat)
deriving DecidableEq, Repr

/-- allocation_service: the get-or-create patient step (idempotent on the
phone number). -/
def get_or_create_patient (pd : PatientData) (s : SrvState) : Patient × SrvState :=
  match s.store.find_patient_by_phone pd.phone with
  | some p => (p, s)
  | none =>
      let p : Patient := ⟨s.nextId, pd.name, pd.phone, pd.age, pd.gender⟩
      (p, { s with store := s.store.add_patient p, nextId := s.nextId + 1 })

/-- allocation_service.AllocationService._create_confirmed_token. -/
def create_confirmed_token (patient_id doctor_id : Nat) (slot : TimeSlot)
    (source : String) (priority : Int) (tid : Nat) : Token :=
  let token_number : Int := slot.allocated_count + 1
  { id := tid, token_number := some token_number, patient_id := patient_id,
    doctor_id := doctor_id, slot_id := slot.id, source := source,
    priority := priority, status := Status.CONFIRMED,
    estimated_time := some (calc_estimated_time slot.start_time token_number) }

/-- allocation_service.AllocationService._create_waitlisted_token. -/
def create_waitlisted_token (patient_id doctor_id : Nat) (slot : TimeSlot)
    (source : String) (priority : Int) (tid : Nat) : Token :=
  { id := tid, token_number := none, patient_id := patient_id,
    doctor_id := doctor_id, slot_id := slot.id, source := source,
    priority := priority, status := Status.WAITLISTED, estimated_time := none }

/-- allocation_service.AllocationService.allocate_token. -/
def allocate_token (pd : PatientData) (doctor_id date : Nat) (slot_time : Int)
    (source : String) (s : SrvState) :
    SrvState × Except Err (Token × AllocOutcome) :=
  if ¬ validate_source source then (s, .error .InvalidSource)
  else if ¬ s.store.get_doctor doctor_id then (s, .error .DoctorNotFound)
  else
    let ps := get_or_create_patient pd s
    let patient := ps.1
    let s1 := ps.2
    match s1.store.find_slot_by_time doctor_id date slot_time with
    | none => (s1, .error .SlotNotFound)
    | some slot =>
        let priority := get_priority_for_source source
        if ¬ slot.is_full then
          let token := create_confirmed_token patient.id doctor_id slot source
            priority s1.nextId
          let slot2 := (slot.add_token token.id).1
          ({ s1 with store := (s1.store.set_slot slot2).add_token token,
                     nextId := s1.nextId + 1 },
           .ok (token, .confirmed))
        else
          let token := create_waitlisted_token patient.id doctor_id slot source
            priority s1.nextId
          let slot2 := (slot.add_to_waitlist token.id).1
          let qp := s1.qm.add_to_waitlist slot.id token.id priority s1.clock
          ({ store := (s1.store.set_slot slot2).add_token token, qm := qp.1,
             clock := s1.clock + 1, nextId := s1.nextId + 1 },
           .ok (token, .waitlisted qp.2))

/-- The confirmed_tokens list comprehension of allocate_emergency_token;
a missing token would make the subsequent attribute access raise. -/
def getTokens (st : DataStore) : List Nat → Option (List Token)
  | [] => some []
  | tid :: rest =>
      match st.get_token tid, getTokens st rest with
      | some t, some ts => some (t :: ts)
      | _, _ => none

/-- Python max(key=priority): keep the current maximum, replace it only
on a strictly larger key, so ties resolve to the earliest element. -/
def maxByPriority : Token → List Token → Token
  | best, [] => best
  | best, t :: ts => maxByPriority (if best.priority < t.priority then t else best) ts

/-- reallocation_service.ReallocationService._promote_from_waitlist. -/
def promote_from_waitlist (slot_id : Nat) (s : SrvState) : SrvState × Option Nat :=
  match s.qm.get_next_from_waitlist slot_id with
  | none => (s, none)
  | some next_tid =>
      match s.store.get_token next_tid, s.store.get_time_slot slot_id with
      | some token, some slot =>
          let slot1 := (slot.remove_from_waitlist token.id).1
          let qm1 := (s.qm.remove_from_waitlist slot_id token.id).1
          let slot2 := (slot1.add_token token.id).1
          let token2 := { token with
            token_number := some slot2.allocated_count,
            estimated_time :=
              some (calc_estimated_time slot2.start_time slot2.allocated_count),
            status := Status.CONFIRMED }
          ({ s with store := (s.store.set_slot slot2).add_token token2, qm := qm1 },
           some token.id)
      | _, _ => (s, none)

/-- reallocation_service.ReallocationService.cancel_token. -/
def cancel_token (tid : Nat) (s : SrvState) :
    SrvState × Except Err (Nat × Option Nat) :=
  match s.store.get_token tid with
  | none => (s, .error .TokenNotFound)
  | some token =>
      if token.status = Status.CANCELLED ∨ token.status = Status.COMPLETED ∨
          token.status = Status.NO_SHOW then
        (s, .error .InvalidTransition)
      else
        match s.store.get_time_slot token.slot_id with
        | none => (s, .error .SlotNotFound)
        | some slot =>
            if token.status = Status.CONFIRMED then
              let slot1 := (slot.remove_token tid).1
              let token1 := { token with status := Status.CANCELLED }
              let s1 := { s with
                store := (s.store.set_slot slot1).add_token token1 }
              let pr := promote_from_waitlist slot.id s1
              (pr.1, .ok (tid, pr.2))
            else if token.status = Status.WAITLISTED then
              let slot1 := (slot.remove_from_waitlist tid).1
              let qm1 := (s.qm.remove_from_waitlist slot.id tid).1
              let token1 := { token with status := Status.CANCELLED }
              ({ s with store := (s.store.set_slot slot1).add_token token1,
                        qm := qm1 },
               .ok (tid, none))
            else (s, .ok (tid, none))

/-- reallocation_service.ReallocationService.mark_no_show. -/
def mark_no_show (tid : Nat) (s : SrvState) :
    SrvState × Except Err (Nat × Option Nat) :=
  match s.store.get_token tid with
  | none => (s, .error .TokenNotFound)
  | some token =>
      if ¬ token.status = Status.CONFIRMED then (s, .error .InvalidTransition)
      else
        match s.store.get_time_slot token.slot_id with
        | none => (s, .error .SlotNotFound)
        | some slot =>
            let slot1 := (slot.remove_token tid).1
            let token1 := { token with status := Status.NO_SHOW }
            let s1 := { s with store := (s.store.set_slot slot1).add_token token1 }
            let pr := promote_from_waitlist slot.id s1
            (pr.1, .ok (tid, pr.2))

/-- reallocation_service.ReallocationService.demote_token. -/
def demote_token (tid : Nat) (s : SrvState) : SrvState × Except Err (Nat × Nat) :=
  match s.store.get_token tid with
  | none => (s, .error .TokenNotFound)
  | some token =>
      if ¬ token.status = Status.CONFIRMED then (s, .error .InvalidTransition)
      else
        match s.store.get_time_slot token.slot_id with
        | none => (s, .error .SlotNotFound)
        | some slot =>
            let slot1 := (slot.remove_token tid).1
            let slot2 := (slot1.add_to_waitlist tid).1
            let qp := s.qm.add_to_waitlist slot.id tid token.priority s.clock
            let token1 :=
              { token with status := Status.WAITLISTED, token_number := none,
                           estimated_time := none }
            ({ store := (s.store.set_slot slot2).add_token token1, qm := qp.1,
               clock := s.clock + 1, nextId := s.nextId },
             .ok (tid, qp.2))

/-- reallocation_service.ReallocationService.complete_token. -/
def complete_token (tid : Nat) (s : SrvState) : SrvState × Except Err Nat :=
  match s.store.get_token tid with
  | none => (s, .error .TokenNotFound)
  | some token =>
      if ¬ token.status = Status.CONFIRMED then (s, .error .InvalidTransition)
      else
        let token1 := { token with status := Status.COMPLETED }
        ({ s with store := s.store.add_token token1 }, .ok tid)

/-- allocation_service.AllocationService.allocate_emergency_token. Note:
no doctor lookup and no source validation happen on this path; on the
preemption branch the source builds a brand-new ReallocationService, so
the demotion runs against a fresh, empty QueueManager that is dropped
afterwards. -/
def allocate_emergency_token (pd : PatientData) (doctor_id date : Nat)
    (slot_time : Int) (s : SrvState) :
    SrvState × Except Err (Token × AllocOutcome) :=
  let ps := get_or_create_patient pd s
  let patient := ps.1
  let s1 := ps.2
  match s1.store.find_slot_by_time doctor_id date slot_time with
  | none => (s1, .error .SlotNotFound)
  | some slot =>
      let emergency_priority := get_priority_for_source "EMERGENCY"
      if ¬ slot.is_full then
        let token := create_confirmed_token patient.id doctor_id slot "EMERGENCY"
          emergency_priority s1.nextId
        let slot2 := (slot.add_token token.id).1
        ({ s1 with store := (s1.store.set_slot slot2).add_token token,
                   nextId := s1.nextId + 1 },
         .ok (token, .emergencyConfirmed none))
      else
        match getTokens s1.store slot.tokens with
        | none => (s1, .error .LookupFailed)
        | some [] => (s1, .error .MaxOfEmptySeq)
        | some (t0 :: ts) =>
            let victim := maxByPriority t0 ts
            if should_demote victim.priority emergency_priority then
              let sub : SrvState := ⟨s1.store, QueueManager.empty, s1.clock, s1.nextId⟩
              let dr := demote_token victim.id sub
              let s2 : SrvState := ⟨dr.1.store, s1.qm, dr.1.clock, dr.1.nextId⟩
              match dr.2 with
              | .error e => (s2, .error e)
              | .ok _ =>
                  match s2.store.get_time_slot slot.id with
                  | none => (s2, .error .LookupFailed)
                  | some slotR =>
                      let token := create_confirmed_token patient.id doctor_id
                        slotR "EMERGENCY" emergency_priority s2.nextId
                      let slot2 := (slotR.add_token token.id).1
                      ({ s2 with
                         store := (s2.store.set_slot slot2).add_token token,
                         nextId := s2.nextId + 1 },
                       .ok (token, .emergencyConfirmed (some victim.id)))
            else
              let token := create_waitlisted_token patient.id doctor_id slot
                "EMERGENCY" emergency_priority s1.nextId
              let slot2 := (slot.add_to_waitlist token.id).1
              let qp := s1.qm.add_to_waitlist slot.id token.id emergency_priority
                s1.clock
              ({ store := (s1.store.set_slot slot2).add_token token, qm := qp.1,
                 clock := s1.clock + 1, nextId := s1.nextId + 1 },
               .ok (token, .emergencyWaitlisted qp.2))

/-
  Engine wiring, from src/app/api/routes.py: one module-level
  AllocationService and one module-level ReallocationService, each with
  its own private QueueManager, over the shared DataStore singleton.
-/

/-- The whole system state behind the API: the shared store, the
allocation service's queue manager (asQM), the reallocation service's
queue manager (rsQM), the clock and the id source. -/
structure EngineState where
  store : DataStore
  asQM : QueueManager
  rsQM : QueueManager
  clock : Nat
  nextId : Nat
deriving DecidableEq, Repr

def EngineState.toAlloc (s : EngineState) : SrvState :=
  ⟨s.store, s.asQM, s.clock, s.nextId⟩

def EngineState.ofAlloc (s : EngineState) (t : SrvState) : EngineState :=
  ⟨t.store, t.qm, s.rsQM, t.clock, t.nextId⟩

def EngineState.toRealloc (s : EngineState) : SrvState :=
  ⟨s.store, s.rsQM, s.clock, s.nextId⟩

def EngineState.ofRealloc (s : EngineState) (t : SrvState) : EngineState :=
  ⟨t.store, s.asQM, t.qm, t.clock, t.nextId⟩

def engAllocate (pd : PatientData) (did date : Nat) (time : Int) (src : String)
    (s : EngineState) : EngineState × Except Err (Token × AllocOutcome) :=
  let tr := allocate_token pd did date time src s.toAlloc
  (s.ofAlloc tr.1, tr.2)

def engAllocateEmergency (pd : PatientData) (did date : Nat) (time : Int)
    (s : EngineState) : EngineState × Except Err (Token × AllocOutcome) :=
  let tr := allocate_emergency_token pd did date time s.toAlloc
  (s.ofAlloc tr.1, tr.2)

def engCancel (tid : Nat) (s : EngineState) :
    EngineState × Except Err (Nat × Option Nat) :=
  let tr := cancel_token tid s.toRealloc
  (s.ofRealloc tr.1, tr.2)

def engNoShow (tid : Nat) (s : EngineState) :
    EngineState × Except Err (Nat × Option Nat) :=
  let tr := mark_no_show tid s.toRealloc
  (s.ofRealloc tr.1, tr.2)

def engDemote (tid : Nat) (s : EngineState) :
    EngineState × Except Err (Nat × Nat) :=
  let tr := demote_token tid s.toRealloc
  (s.ofRealloc tr.1, tr.2)

def engComplete (tid : Nat) (s : EngineState) : EngineState × Except Err Nat :=
  let tr := complete_token tid s.toRealloc
  (s.ofRealloc tr.1, tr.2)

/-- The operations a client can fire at the system: the setup routes
(create doctor, create slot with a nonnegative capacity) and the engine
operations of spec section 4.5. -/
inductive Op where
  | addDoctor (did : Nat)
  | addSlot (sid did date : Nat) (startT endT : Int) (cap : Nat)
  | allocate (pd : PatientData) (did date : Nat) (time : Int) (src : String)
  | allocateEmergency (pd : PatientData) (did date : Nat) (time : Int)
  | cancel (tid : Nat)
  | noShow (tid : Nat)
  | demote (tid : Nat)
  | complete (tid : Nat)
deriving DecidableEq, Repr

def applyOp : Op → EngineState → EngineState
  | .addDoctor did, s =>
      { s with store := { s.store with doctors := s.store.doctors ++ [did] } }
  | .addSlot sid did date st et cap, s =>
      let sl : TimeSlot := ⟨sid, did, st, et, date, (cap : Int), 0, [], []⟩
      { s with store := s.store.set_slot sl }
  | .allocate pd did date time src, s => (engAllocate pd did date time src s).1
  | .allocateEmergency pd did date time, s =>
      (engAllocateEmergency pd did date time s).1
  | .cancel tid, s => (engCancel tid s).1
  | .noShow tid, s => (engNoShow tid s).1
  | .demote tid, s => (engDemote tid s).1
  | .complete tid, s => (engComplete tid s).1

def initState : EngineState :=
  ⟨⟨[], [], [], []⟩, QueueManager.empty, QueueManager.empty, 0, 0⟩

def run (ops : List Op) (s : EngineState) : EngineState :=
  ops.foldl (fun t op => applyOp op t) s

/-- The waitlist-only operation alphabet of spec section 4.2: enqueue and
remove against a QueueManager. -/
inductive QOp where
  | enq (slot tid : Nat) (priority : Int)
  | rem (slot tid : Nat)
deriving DecidableEq, Repr

structure QState where
  qm : QueueManager
  clock : Nat
deriving DecidableEq, Repr

def applyQOp : QOp → QState → QState
  | .enq slot tid prio, s =>
      ⟨(s.qm.add_to_waitlist slot tid prio s.clock).1, s.clock + 1⟩
  | .rem slot tid, s => ⟨(s.qm.remove_from_waitlist slot tid).1, s.clock⟩

def runQ (ops : List QOp) : QState :=
  ops.foldl (fun s op => applyQOp op s) ⟨QueueManager.empty, 0⟩

/-
  Basic lemmas about the association-list store and the service wiring.
-/

theorem alGet_alSet_self {α : Type} (m : List (Nat × α)) (k : Nat) (v : α) :
    alGet (alSet m k v) k = some v := by
  induction m with
  | nil => simp [alGet, alSet]
  | cons p rest ih =>
      by_cases h : p.1 = k
      · simp [alGet, alSet, h]
      · simp [alGet, alSet, h, ih]

theorem alGet_alSet_ne {α : Type} (m : List (Nat × α)) (k k2 : Nat) (v : α)
    (h : ¬ k = k2) : alGet (alSet m k v) k2 = alGet m k2 := by
  induction m with
  | nil => simp [alGet, alSet, h]
  | cons p rest ih =>
      by_cases hp : p.1 = k
      · simp [alGet, alSet, hp, h]
      · simp only [alSet, if_neg hp]
        by_cases hp2 : p.1 = k2
        · simp [alGet, hp2]
        · simp [alGet, hp2, ih]

theorem mem_alSet {α : Type} (m : List (Nat × α)) (k : Nat) (v : α) :
    ∀ p ∈ alSet m k v, p = (k, v) ∨ p ∈ m := by
  induction m with
  | nil => simp [alSet]
  | cons q rest ih =>
      intro p hp
      by_cases hq : q.1 = k
      · simp only [alSet, if_pos hq, List.mem_cons] at hp
        rcases hp with h | h
        · exact Or.inl h
        · exact Or.inr (List.mem_cons_of_mem _ h)
      · simp only [alSet, if_neg hq, List.mem_cons] at hp
        rcases hp with h | h
        · exact Or.inr (h ▸ List.mem_cons_self _ _)
        · rcases ih p h with h2 | h2
          · exact Or.inl h2
          · exact Or.inr (List.mem_cons_of_mem _ h2)

theorem ofRealloc_toRealloc (s : EngineState) : s.ofRealloc s.toRealloc = s := rfl

theorem ofAlloc_toAlloc (s : EngineState) : s.ofAlloc s.toAlloc = s := rfl

/-- demote_token raises only TokenNotFound, InvalidTransition or
SlotNotFound; in particular never DoctorNotFound. -/
theorem demote_token_never_DoctorNotFound (tid : Nat) (s : SrvState) :
    ¬ (demote_token tid s).2 = .error .DoctorNotFound := by
  unfold demote_token
  split
  · simp
  · split
    · simp
    · split <;> simp

/-- C2: every reallocation operation (cancel, markNoShow, demote,
complete) invoked on a token whose status does not permit the transition
fails with InvalidTransition — in particular cancelling a token already
Cancelled, Completed or NoShow — and with TokenNotFound on an unknown
token id; in every such failing call the returned state is exactly the
input state, so no Token, TimeSlot or WaitlistQueue state is mutated. -/
theorem claim_C2_all_or_nothing_invalid_ops (s : EngineState) (tid : Nat) :
    (s.store.get_token tid = none →
      engCancel tid s = (s, .error .TokenNotFound) ∧
      engNoShow tid s = (s, .error .TokenNotFound) ∧
      engDemote tid s = (s, .error .TokenNotFound) ∧
      engComplete tid s = (s, .error .TokenNotFound)) ∧
    (∀ tok : Token, s.store.get_token tid = some tok →
      ((tok.status = Status.CANCELLED ∨ tok.status = Status.COMPLETED ∨
        tok.status = Status.NO_SHOW) →
        engCancel tid s = (s, .error .InvalidTransition)) ∧
      (¬ tok.status = Status.CONFIRMED →
        engNoShow tid s = (s, .error .InvalidTransition) ∧
        engDemote tid s = (s, .error .InvalidTransition) ∧
        engComplete tid s = (s, .error .InvalidTransition))) := by
  constructor
  · intro h
    refine ⟨?_, ?_, ?_, ?_⟩ <;>
      simp [engCancel, engNoShow, engDemote, engComplete, cancel_token,
        mark_no_show, demote_token, complete_token, EngineState.toRealloc,
        EngineState.ofRealloc, h]
  · intro tok htok
    constructor
    · intro hst
      simp [engCancel, cancel_token, EngineState.toRealloc,
        EngineState.ofRealloc, htok, hst]
    · intro hst
      refine ⟨?_, ?_, ?_⟩ <;>
        simp [engNoShow, engDemote, engComplete, mark_no_show, demote_token,
          complete_token, EngineState.toRealloc, EngineState.ofRealloc, htok, hst]

def c2tok : Token := ⟨5, none, 0, 1, 100, "WALK_IN", 5, Status.CANCELLED, none⟩

def c2state : EngineState :=
  ⟨⟨[1], [], [(5, c2tok)], []⟩, QueueManager.empty, QueueManager.empty, 0, 0⟩

/-- Witness for C2: a concrete store holding one already-cancelled token;
cancelling it again fails InvalidTransition and completing an unknown id
fails TokenNotFound, both leaving the state untouched. -/
theorem claim_C2_witness :
    engCancel 5 c2state = (c2state, .error .InvalidTransition) ∧
    engComplete 9 c2state = (c2state, .error .TokenNotFound) ∧
    engNoShow 5 c2state = (c2state, .error .InvalidTransition) :=
  ⟨((claim_C2_all_or_nothing_invalid_ops c2state 5).2 c2tok rfl).1 (Or.inl rfl),
   ((claim_C2_all_or_nothing_invalid_ops c2state 9).1 rfl).2.2.2,
   (((claim_C2_all_or_nothing_invalid_ops c2state 5).2 c2tok rfl).2
     (by decide)).1⟩

/-- C9: completing a Confirmed token sets exactly that token's status to
Completed and nothing else: the slot map (hence the confirmed list, the
allocated count, the available capacity and the slot waitlist view), both
queue managers, the patients and the doctors are unchanged, the token
keeps every other field, and the slot's confirmed list still contains the
token id — no capacity is freed and no promotion is triggered. -/
theorem claim_C9_complete_frame (s : EngineState) (tid : Nat) (tok : Token)
    (slot : TimeSlot)
    (htok : s.store.get_token tid = some tok)
    (hst : tok.status = Status.CONFIRMED)
    (hid : tok.id = tid)
    (hslot : s.store.get_time_slot tok.slot_id = some slot)
    (hmem : tid ∈ slot.tokens) :
    engComplete tid s =
      ({ s with store := { s.store with
          tokens := alSet s.store.tokens tid
            { tok with status := Status.COMPLETED } } },
        .ok tid) ∧
    (engComplete tid s).1.store.time_slots = s.store.time_slots ∧
    (engComplete tid s).1.store.get_time_slot tok.slot_id = some slot ∧
    tid ∈ slot.tokens ∧
    (engComplete tid s).1.asQM = s.asQM ∧
    (engComplete tid s).1.rsQM = s.rsQM ∧
    (engComplete tid s).1.store.patients = s.store.patients ∧
    (engComplete tid s).1.store.doctors = s.store.doctors ∧
    (engComplete tid s).1.store.get_token tid =
      some { tok with status := Status.COMPLETED } := by
  have hmain : engComplete tid s =
      ({ s with store := { s.store with
          tokens := alSet s.store.tokens tid
            { tok with status := Status.COMPLETED } } },
        .ok tid) := by
    simp [engComplete, complete_token, EngineState.toRealloc,
      EngineState.ofRealloc, DataStore.add_token, htok, hst, hid]
  simp only [DataStore.get_time_slot] at hslot
  refine ⟨hmain, ?_, ?_, hmem, ?_, ?_, ?_, ?_, ?_⟩ <;>
    simp [hmain, DataStore.get_time_slot, DataStore.get_token, hslot,
      alGet_alSet_self]

def c9tok : Token := ⟨1, some 1, 0, 1, 100, "WALK_IN", 5, Status.CONFIRMED, some 540⟩

def c9slot : TimeSlot := ⟨100, 1, 540, 600, 0, 2, 1, [1], []⟩

def c9state : EngineState :=
  ⟨⟨[1], [(100, c9slot)], [(1, c9tok)], []⟩,
   QueueManager.empty, QueueManager.empty, 0, 0⟩

/-- Witness for C9 at a concrete one-token store. -/
theorem claim_C9_witness :
    c9state.store.get_token 1 = some c9tok ∧
    c9tok.status = Status.CONFIRMED ∧
    (engComplete 1 c9state).1.store.time_slots = c9state.store.time_slots ∧
    (engComplete 1 c9state).1.store.get_token 1 =
      some { c9tok with status := Status.COMPLETED } :=
  ⟨rfl, rfl,
   (claim_C9_complete_frame c9state 1 c9tok c9slot rfl rfl rfl rfl
     (by decide)).2.1,
   (claim_C9_complete_frame c9state 1 c9tok c9slot rfl rfl rfl rfl
     (by decide)).2.2.2.2.2.2.2.2⟩

/-- C8 counterexample: PriorityResolver.resolve is
PriorityManager.get_priority_for_source, which does not fail on the
unrecognized category REFERRAL: it returns the fallback rank 999. -/
theorem claim_C8_counterexample :
    validate_source "REFERRAL" = false ∧
    get_priority_for_source "REFERRAL" = 999 := by
  constructor <;> rfl

/-- C8 (amended): for every unrecognized source category,
get_priority_for_source returns the default rank 999 (it never fails);
the rejection the spec describes lives in allocate_token, which fails
with InvalidSource via validate_source before resolving a rank, leaving
the state untouched. -/
theorem claim_C8_amended (src : String) (h : validate_source src = false) :
    get_priority_for_source src = 999 ∧
    ∀ (pd : PatientData) (did date : Nat) (time : Int) (s : EngineState),
      engAllocate pd did date time src s = (s, .error .InvalidSource) := by
  have hns : ¬ src = "EMERGENCY" ∧ ¬ src = "PAID_PRIORITY" ∧
      ¬ src = "FOLLOW_UP" ∧ ¬ src = "ONLINE_BOOKING" ∧ ¬ src = "WALK_IN" := by
    simp [validate_source, TOKEN_SOURCES] at h
    tauto
  constructor
  · simp [get_priority_for_source, PRIORITY_LEVELS, hns.1, hns.2.1, hns.2.2.1,
      hns.2.2.2.1, hns.2.2.2.2]
  · intro pd did date time s
    simp [engAllocate, allocate_token, EngineState.toAlloc,
      EngineState.ofAlloc, h]

def pdw : PatientData := ⟨"E", "p", 40, "M"⟩

/-- Witness for C8 at the concrete unrecognized source REFERRAL. -/
theorem claim_C8_witness :
    validate_source "REFERRAL" = false ∧
    get_priority_for_source "REFERRAL" = 999 ∧
    engAllocate pdw 1 0 540 "REFERRAL" initState =
      (initState, .error .InvalidSource) :=
  ⟨rfl, (claim_C8_amended "REFERRAL" rfl).1,
   (claim_C8_amended "REFERRAL" rfl).2 pdw 1 0 540 initState⟩

def c7state : EngineState :=
  ⟨⟨[], [(100, ⟨100, 7, 540, 600, 0, 1, 0, [], []⟩)], [], []⟩,
   QueueManager.empty, QueueManager.empty, 0, 0⟩

/-- C7 counterexample: a store whose doctors table is empty but which
holds a slot recorded under doctor id 7. allocate_emergency_token for the
absent doctor 7 does not fail DoctorNotFound: it confirms the emergency
token, because the emergency path performs no doctor lookup at all. -/
theorem claim_C7_counterexample :
    c7state.store.get_doctor 7 = false ∧
    (engAllocateEmergency ⟨"E", "p", 40, "M"⟩ 7 0 540 c7state).2 =
      .ok (⟨1, some 1, 0, 7, 100, "EMERGENCY", 1, Status.CONFIRMED, some 540⟩,
        .emergencyConfirmed none) := by
  constructor <;> rfl

/-- C7 (amended): allocateEmergency performs no doctor resolution and can
never fail DoctorNotFound; when no slot matches the requested
doctor/date/time (in particular whenever the doctor id is absent and no
slot records it) it fails with SlotNotFound instead. -/
theorem claim_C7_amended (pd : PatientData) (did date : Nat) (time : Int)
    (s : EngineState) :
    (¬ (engAllocateEmergency pd did date time s).2 = .error .DoctorNotFound) ∧
    (s.store.get_doctor did = false →
      s.store.find_slot_by_time did date time = none →
      (engAllocateEmergency pd did date time s).2 = .error .SlotNotFound) := by
  constructor
  · unfold engAllocateEmergency allocate_emergency_token
    dsimp only
    split
    · simp
    · split
      · simp
      · split
        · simp
        · simp
        · split
          · split
            · rename_i heq
              intro hcontra
              simp only [Except.error.injEq] at hcontra
              exact demote_token_never_DoctorNotFound _ _ (hcontra ▸ heq)
            · split <;> simp
          · simp
  · intro _ hslot
    have hfind : List.find? (fun p =>
        p.2.doctor_id == did && p.2.date == date && p.2.start_time == time)
        s.store.time_slots = none := by
      simpa [DataStore.find_slot_by_time, Option.map_eq_none'] using hslot
    unfold engAllocateEmergency allocate_emergency_token get_or_create_patient
    dsimp only
    cases hp : (EngineState.toAlloc s).store.find_patient_by_phone pd.phone <;>
      simp [hp, EngineState.toAlloc, EngineState.ofAlloc, DataStore.add_patient,
        DataStore.find_slot_by_time, hfind]

/-- Witness for C7 (amended) on the empty store: doctor 7 absent, no slot
matches, the emergency allocation fails SlotNotFound. -/
theorem claim_C7_witness :
    initState.store.get_doctor 7 = false ∧
    initState.store.find_slot_by_time 7 0 540 = none ∧
    (engAllocateEmergency pdw 7 0 540 initState).2 = .error .SlotNotFound :=
  ⟨rfl, rfl, (claim_C7_amended pdw 7 0 540 initState).2 rfl rfl⟩

/-- C10: when the patient's phone is unknown and the requested slot does
not exist, both allocate (given a valid source and an existing doctor,
which its earlier checks require) and allocateEmergency fail with
SlotNotFound, yet the freshly created Patient record has already been
written to the repository and remains there after the failure: patient
creation precedes slot resolution and is not rolled back. -/
theorem claim_C10_patient_persisted (s : EngineState) (pd : PatientData)
    (did date : Nat) (time : Int) (src : String)
    (hsrc : validate_source src = true)
    (hdoc : s.store.get_doctor did = true)
    (hph : s.store.find_patient_by_phone pd.phone = none)
    (hslot : s.store.find_slot_by_time did date time = none) :
    (engAllocate pd did date time src s).2 = .error .SlotNotFound ∧
    (engAllocate pd did date time src s).1.store.patients =
      alSet s.store.patients s.nextId
        ⟨s.nextId, pd.name, pd.phone, pd.age, pd.gender⟩ ∧
    (engAllocateEmergency pd did date time s).2 = .error .SlotNotFound ∧
    (engAllocateEmergency pd did date time s).1.store.patients =
      alSet s.store.patients s.nextId
        ⟨s.nextId, pd.name, pd.phone, pd.age, pd.gender⟩ := by
  simp only [DataStore.find_slot_by_time] at hslot
  refine ⟨?_, ?_, ?_, ?_⟩ <;>
    simp [engAllocate, engAllocateEmergency, allocate_token,
      allocate_emergency_token, get_or_create_patient, EngineState.toAlloc,
      EngineState.ofAlloc, DataStore.add_patient, DataStore.find_slot_by_time,
      hsrc, hdoc, hph, hslot]

def c6s0 : EngineState :=
  run [Op.addDoctor 1, Op.addSlot 100 1 0 540 600 2] initState

def c6s1 : EngineState :=
  (engAllocate ⟨"A", "p1", 30, "M"⟩ 1 0 540 "WALK_IN" c6s0).1

def c6s2 : EngineState :=
  (engAllocate ⟨"B", "p2", 31, "F"⟩ 1 0 540 "WALK_IN" c6s1).1

def c6slot0 : TimeSlot := ⟨100, 1, 540, 600, 0, 2, 0, [], []⟩

/-- C6: on a resolvable request, while the slot has room the created
token gets sequence number len(confirmed) + 1, estimated time
slotStart + (sequence - 1) * averageServiceDuration, status Confirmed and
its id appended to the confirmed list; once the slot is full the token is
Waitlisted with no sequence number. Scenario A: on a capacity-2 slot,
three WALK_IN allocations yield sequence numbers 1 and 2 Confirmed and a
third token Waitlisted at position 1. -/
theorem claim_C6_allocate_contract :
    (∀ (s : EngineState) (pd : PatientData) (did date : Nat) (time : Int)
        (src : String) (slot : TimeSlot),
      validate_source src = true →
      s.store.get_doctor did = true →
      s.store.find_slot_by_time did date time = some slot →
      slot.allocated_count = (slot.tokens.length : Int) →
      ((¬ slot.is_full = true →
        ∃ tok : Token,
          (engAllocate pd did date time src s).2 = .ok (tok, .confirmed) ∧
          tok.status = Status.CONFIRMED ∧
          tok.token_number = some ((slot.tokens.length : Int) + 1) ∧
          tok.estimated_time = some (slot.start_time +
            (slot.tokens.length : Int) * AVERAGE_CONSULTATION_MINUTES) ∧
          (engAllocate pd did date time src s).1.store.get_time_slot slot.id =
            some { slot with
                   tokens := slot.tokens ++ [tok.id],
                   allocated_count := slot.allocated_count + 1 }) ∧
       (slot.is_full = true →
        ∃ (tok : Token) (pos : Nat),
          (engAllocate pd did date time src s).2 = .ok (tok, .waitlisted pos) ∧
          tok.status = Status.WAITLISTED ∧
          tok.token_number = none))) ∧
    ((engAllocate ⟨"A", "p1", 30, "M"⟩ 1 0 540 "WALK_IN" c6s0).2 =
      .ok (⟨1, some 1, 0, 1, 100, "WALK_IN", 5, Status.CONFIRMED, some 540⟩,
        .confirmed) ∧
     (engAllocate ⟨"B", "p2", 31, "F"⟩ 1 0 540 "WALK_IN" c6s1).2 =
      .ok (⟨3, some 2, 2, 1, 100, "WALK_IN", 5, Status.CONFIRMED, some 545⟩,
        .confirmed) ∧
     (engAllocate ⟨"C", "p3", 32, "M"⟩ 1 0 540 "WALK_IN" c6s2).2 =
      .ok (⟨5, none, 4, 1, 100, "WALK_IN", 5, Status.WAITLISTED, none⟩,
        .waitlisted 1)) := by
  constructor
  · intro s pd did date time src slot hsrc hdoc hslot hsync
    have hfind := hslot
    simp only [DataStore.find_slot_by_time] at hfind
    constructor
    · intro hfree
      have hlt : slot.allocated_count < slot.max_capacity := by
        simp [TimeSlot.is_full] at hfree
        omega
      have hlt2 : (slot.tokens.length : Int) < slot.max_capacity := by omega
      unfold engAllocate allocate_token get_or_create_patient
      dsimp only
      cases hp : (EngineState.toAlloc s).store.find_patient_by_phone pd.phone with
      | none =>
          use create_confirmed_token s.nextId did slot src
            (get_priority_for_source src) (s.nextId + 1)
          refine ⟨?_, rfl, ?_, ?_, ?_⟩ <;>
            simp [hp, hsrc, hdoc, hfind, hfree, EngineState.toAlloc,
              EngineState.ofAlloc, DataStore.add_patient,
              DataStore.find_slot_by_time, create_confirmed_token,
              calc_estimated_time, TimeSlot.add_token, hlt, DataStore.set_slot,
              DataStore.add_token, DataStore.get_time_slot, alGet_alSet_self,
              hsync, hlt2]
      | some p =>
          use create_confirmed_token p.id did slot src
            (get_priority_for_source src) s.nextId
          refine ⟨?_, rfl, ?_, ?_, ?_⟩ <;>
            simp [hp, hsrc, hdoc, hfind, hfree, EngineState.toAlloc,
              EngineState.ofAlloc, DataStore.add_patient,
              DataStore.find_slot_by_time, create_confirmed_token,
              calc_estimated_time, TimeSlot.add_token, hlt, DataStore.set_slot,
              DataStore.add_token, DataStore.get_time_slot, alGet_alSet_self,
              hsync, hlt2]
    · intro hfull
      unfold engAllocate allocate_token get_or_create_patient
      dsimp only
      cases hp : (EngineState.toAlloc s).store.find_patient_by_phone pd.phone with
      | none =>
          use create_waitlisted_token s.nextId did slot src
            (get_priority_for_source src) (s.nextId + 1)
          use (s.asQM.add_to_waitlist slot.id (s.nextId + 1)
            (get_priority_for_source src) s.clock).2
          refine ⟨?_, rfl, rfl⟩
          simp [hp, hsrc, hdoc, hfind, hfull, EngineState.toAlloc,
            EngineState.ofAlloc, DataStore.add_patient,
            DataStore.find_slot_by_time, create_waitlisted_token]
      | some p =>
          use create_waitlisted_token p.id did slot src
            (get_priority_for_source src) s.nextId
          use (s.asQM.add_to_waitlist slot.id s.nextId
            (get_priority_for_source src) s.clock).2
          refine ⟨?_, rfl, rfl⟩
          simp [hp, hsrc, hdoc, hfind, hfull, EngineState.toAlloc,
            EngineState.ofAlloc, DataStore.add_patient,
            DataStore.find_slot_by_time, create_waitlisted_token]
  · exact ⟨rfl, rfl, rfl⟩

/-- Witness for C6 at the empty capacity-2 slot of Scenario A. -/
theorem claim_C6_witness :
    ∃ tok : Token,
      (engAllocate ⟨"A", "p1", 30, "M"⟩ 1 0 540 "WALK_IN" c6s0).2 =
        .ok (tok, .confirmed) ∧
      tok.status = Status.CONFIRMED ∧
      tok.token_number = some ((c6slot0.tokens.length : Int) + 1) ∧
      tok.estimated_time = some (c6slot0.start_time +
        (c6slot0.tokens.length : Int) * AVERAGE_CONSULTATION_MINUTES) ∧
      (engAllocate ⟨"A", "p1", 30, "M"⟩ 1 0 540 "WALK_IN" c6s0).1.store.get_time_slot
          c6slot0.id =
        some { c6slot0 with
               tokens := c6slot0.tokens ++ [tok.id],
               allocated_count := c6slot0.allocated_count + 1 } :=
  (claim_C6_allocate_contract.1 c6s0 ⟨"A", "p1", 30, "M"⟩ 1 0 540 "WALK_IN"
    c6slot0 rfl rfl rfl rfl).1 (by decide)

/-- C3: on a capacity-1 slot whose single confirmed token is a rank-5
WALK_IN, an EMERGENCY allocation demotes the walk-in — status
Waitlisted, sequence number and estimated time cleared, appended to the
slot waitlist, and (inside the demotion the emergency path performs) its
queue entry carries the token's existing rank — and confirms the
emergency token with sequence number 1. -/
theorem claim_C3_emergency_preemption (s : EngineState) (pd : PatientData)
    (did date : Nat) (time : Int) (slot : TimeSlot) (aid : Nat) (a : Token)
    (hslot : s.store.find_slot_by_time did date time = some slot)
    (hkey : alGet s.store.time_slots slot.id = some slot)
    (hcap : slot.max_capacity = 1)
    (hcount : slot.allocated_count = 1)
    (htoks : slot.tokens = [aid])
    (hwl : ¬ aid ∈ slot.waitlist)
    (hga : s.store.get_token aid = some a)
    (hfresh : aid < s.nextId)
    (haid : a.id = aid)
    (hasl : a.slot_id = slot.id)
    (hast : a.status = Status.CONFIRMED)
    (hasrc : a.source = "WALK_IN")
    (hap : a.priority = 5) :
    ∃ etok : Token,
      (engAllocateEmergency pd did date time s).2 =
        .ok (etok, .emergencyConfirmed (some aid)) ∧
      etok.status = Status.CONFIRMED ∧
      etok.token_number = some 1 ∧
      etok.priority = 1 ∧
      etok.source = "EMERGENCY" ∧
      etok.estimated_time = some slot.start_time ∧
      (engAllocateEmergency pd did date time s).1.store.get_token aid =
        some { a with status := Status.WAITLISTED, token_number := none,
                      estimated_time := none } ∧
      (engAllocateEmergency pd did date time s).1.store.get_time_slot slot.id =
        some { slot with tokens := [etok.id], allocated_count := 1,
                         waitlist := slot.waitlist ++ [aid] } ∧
      alGet ((demote_token aid
          ⟨(get_or_create_patient pd s.toAlloc).2.store, QueueManager.empty,
            s.clock, (get_or_create_patient pd s.toAlloc).2.nextId⟩).1.qm.waitlists)
          slot.id = some [⟨aid, a.priority, s.clock⟩] := by
  have hfind := hslot
  simp only [DataStore.find_slot_by_time] at hfind
  simp only [DataStore.get_token] at hga
  have hfull : slot.is_full = true := by
    simp [TimeSlot.is_full, hcap, hcount]
  unfold engAllocateEmergency allocate_emergency_token get_or_create_patient
    demote_token
  dsimp only
  cases hp : (EngineState.toAlloc s).store.find_patient_by_phone pd.phone with
  | none =>
      have hne : ¬ (s.nextId + 1) = aid := by omega
      use ⟨s.nextId + 1, some 1, s.nextId, did, slot.id, "EMERGENCY", 1,
        Status.CONFIRMED, some slot.start_time⟩
      refine ⟨?_, rfl, rfl, rfl, rfl, rfl, ?_, ?_, ?_⟩ <;>
        simp [hp, hfind, hga, hfull, htoks, hcount, hcap, haid, hasl, hast, hkey,
          hasrc, hap, hwl, hne, EngineState.toAlloc, EngineState.ofAlloc,
          DataStore.add_patient, DataStore.find_slot_by_time,
          DataStore.get_token, DataStore.get_time_slot, DataStore.set_slot,
          DataStore.add_token, getTokens, maxByPriority, should_demote,
          get_priority_for_source, PRIORITY_LEVELS, TimeSlot.remove_token,
          TimeSlot.add_to_waitlist, TimeSlot.add_token, TimeSlot.is_full,
          QueueManager.add_to_waitlist, QueueManager.empty, sortWaitlist,
          List.insertionSort, List.orderedInsert, alGet_alSet_self,
          alGet_alSet_ne, alGet, alSet, create_confirmed_token,
          calc_estimated_time]
  | some p =>
      have hne : ¬ s.nextId = aid := by omega
      use ⟨s.nextId, some 1, p.id, did, slot.id, "EMERGENCY", 1,
        Status.CONFIRMED, some slot.start_time⟩
      refine ⟨?_, rfl, rfl, rfl, rfl, rfl, ?_, ?_, ?_⟩ <;>
        simp [hp, hfind, hga, hfull, htoks, hcount, hcap, haid, hasl, hast, hkey,
          hasrc, hap, hwl, hne, EngineState.toAlloc, EngineState.ofAlloc,
          DataStore.add_patient, DataStore.find_slot_by_time,
          DataStore.get_token, DataStore.get_time_slot, DataStore.set_slot,
          DataStore.add_token, getTokens, maxByPriority, should_demote,
          get_priority_for_source, PRIORITY_LEVELS, TimeSlot.remove_token,
          TimeSlot.add_to_waitlist, TimeSlot.add_token, TimeSlot.is_full,
          QueueManager.add_to_waitlist, QueueManager.empty, sortWaitlist,
          List.insertionSort, List.orderedInsert, alGet_alSet_self,
          alGet_alSet_ne, alGet, alSet, create_confirmed_token,
          calc_estimated_time]

def c3slot : TimeSlot := ⟨100, 1, 540, 600, 0, 1, 1, [1], []⟩

def c3tok : Token := ⟨1, some 1, 0, 1, 100, "WALK_IN", 5, Status.CONFIRMED, some 540⟩

def c3state : EngineState :=
  ⟨⟨[1], [(100, c3slot)], [(1, c3tok)], [(0, ⟨0, "A", "p1", 30, "M"⟩)]⟩,
   QueueManager.empty, QueueManager.empty, 0, 2⟩

/-- Witness for C3 at the concrete Scenario B state. -/
theorem claim_C3_witness :
    ∃ etok : Token,
      (engAllocateEmergency ⟨"E", "p9", 40, "M"⟩ 1 0 540 c3state).2 =
        .ok (etok, .emergencyConfirmed (some 1)) ∧
      etok.status = Status.CONFIRMED ∧
      etok.token_number = some 1 ∧
      etok.priority = 1 ∧
      etok.source = "EMERGENCY" ∧
      etok.estimated_time = some c3slot.start_time ∧
      (engAllocateEmergency ⟨"E", "p9", 40, "M"⟩ 1 0 540 c3state).1.store.get_token 1 =
        some { c3tok with status := Status.WAITLISTED, token_number := none,
                          estimated_time := none } ∧
      (engAllocateEmergency ⟨"E", "p9", 40, "M"⟩ 1 0 540 c3state).1.store.get_time_slot
          c3slot.id =
        some { c3slot with tokens := [etok.id], allocated_count := 1,
                           waitlist := c3slot.waitlist ++ [1] } ∧
      alGet ((demote_token 1
          ⟨(get_or_create_patient ⟨"E", "p9", 40, "M"⟩ c3state.toAlloc).2.store,
            QueueManager.empty, c3state.clock,
            (get_or_create_patient ⟨"E", "p9", 40, "M"⟩ c3state.toAlloc).2.nextId⟩).1.qm.waitlists)
          c3slot.id = some [⟨1, c3tok.priority, c3state.clock⟩] :=
  claim_C3_emergency_preemption c3state ⟨"E", "p9", 40, "M"⟩ 1 0 540 c3slot 1
    c3tok rfl rfl rfl rfl rfl (by decide) rfl (by decide) rfl rfl rfl rfl rfl

def c1s0 : EngineState :=
  run [Op.addDoctor 1, Op.addSlot 100 1 0 540 600 1] initState

def c1s1 : EngineState :=
  (engAllocate ⟨"A", "p1", 30, "M"⟩ 1 0 540 "WALK_IN" c1s0).1

def c1s2 : EngineState :=
  (engAllocate ⟨"B", "p2", 31, "F"⟩ 1 0 540 "WALK_IN" c1s1).1

/-- C1 evaluation at the failing input (Scenario C run through the
routes.py wiring): a capacity-1 slot, A allocated and Confirmed, B
allocated and Waitlisted at position 1 by the allocation service;
cancelling A reports no promotion, leaves B Waitlisted, and shrinks the
confirmed list from 1 to 0 — because cancel_token consults the
ReallocationService's own QueueManager (rsQM), which is empty: each
service constructs a private QueueManager, so B's waitlist entry lives
only in the allocation service's queue (asQM). -/
theorem claim_C1_promotion_never_fires :
    (engAllocate ⟨"B", "p2", 31, "F"⟩ 1 0 540 "WALK_IN" c1s1).2 =
      .ok (⟨3, none, 2, 1, 100, "WALK_IN", 5, Status.WAITLISTED, none⟩,
        .waitlisted 1) ∧
    c1s2.store.get_token 1 =
      some ⟨1, some 1, 0, 1, 100, "WALK_IN", 5, Status.CONFIRMED, some 540⟩ ∧
    c1s2.rsQM = QueueManager.empty ∧
    (engCancel 1 c1s2).2 = .ok (1, none) ∧
    (engCancel 1 c1s2).1.store.get_token 3 =
      some ⟨3, none, 2, 1, 100, "WALK_IN", 5, Status.WAITLISTED, none⟩ ∧
    (engCancel 1 c1s2).1.store.get_time_slot 100 =
      some ⟨100, 1, 540, 600, 0, 1, 0, [], [3]⟩ :=
  ⟨rfl, rfl, rfl, rfl, rfl, rfl⟩

def c10state : EngineState :=
  ⟨⟨[1], [], [], []⟩, QueueManager.empty, QueueManager.empty, 0, 0⟩

def pdw2 : PatientData := ⟨"W", "pw", 30, "F"⟩

/-- Witness for C10: doctor 1 exists, no slot and no patient do; the
failed allocation persists patient 0. -/
theorem claim_C10_witness :
    validate_source "WALK_IN" = true ∧
    (engAllocate pdw2 1 0 540 "WALK_IN" c10state).2 = .error .SlotNotFound ∧
    (engAllocate pdw2 1 0 540 "WALK_IN" c10state).1.store.patients =
      alSet c10state.store.patients 0 ⟨0, "W", "pw", 30, "F"⟩ ∧
    (engAllocateEmergency pdw2 1 0 540 c10state).2 = .error .SlotNotFound :=
  ⟨rfl,
   (claim_C10_patient_persisted c10state pdw2 1 0 540 "WALK_IN" rfl rfl rfl rfl).1,
   (claim_C10_patient_persisted c10state pdw2 1 0 540 "WALK_IN" rfl rfl rfl rfl).2.1,
   (claim_C10_patient_persisted c10state pdw2 1 0 540 "WALK_IN" rfl rfl rfl rfl).2.2.1⟩



def slotInv (sl : TimeSlot) : Prop :=
  sl.allocated_count = (sl.tokens.length : Int) ∧
  sl.allocated_count ≤ sl.max_capacity

def storeInv (st : DataStore) : Prop := ∀ p ∈ st.time_slots, slotInv p.2

def engInv (s : EngineState) : Prop := storeInv s.store

theorem alGet_mem {α : Type} (m : List (Nat × α)) (k : Nat) (v : α)
    (h : alGet m k = some v) : (k, v) ∈ m := by
  induction m with
  | nil => simp [alGet] at h
  | cons p rest ih =>
      by_cases hp : p.1 = k
      · obtain ⟨k1, v1⟩ := p
        simp only [alGet] at h
        simp only [] at hp
        rw [if_pos hp] at h
        simp only [Option.some.injEq] at h
        subst hp
        subst h
        exact List.mem_cons_self _ _
      · simp only [alGet, if_neg hp] at h
        exact List.mem_cons_of_mem _ (ih h)

theorem storeInv_set_slot {st : DataStore} {sl : TimeSlot} (h : storeInv st)
    (hsl : slotInv sl) : storeInv (st.set_slot sl) := by
  intro p hp
  rcases mem_alSet _ _ _ p hp with h2 | h2
  · rw [h2]
    exact hsl
  · exact h p h2

theorem storeInv_add_token {st : DataStore} (t : Token) (h : storeInv st) :
    storeInv (st.add_token t) := h

theorem storeInv_add_patient {st : DataStore} (p : Patient) (h : storeInv st) :
    storeInv (st.add_patient p) := h

theorem slotInv_add_token {sl : TimeSlot} (tid : Nat) (h : slotInv sl) :
    slotInv (sl.add_token tid).1 := by
  unfold TimeSlot.add_token
  split
  · constructor
    · simp [h.1]
    · rename_i hlt
      simpa using hlt
  · exact h

theorem slotInv_remove_token {sl : TimeSlot} (tid : Nat) (h : slotInv sl) :
    slotInv (sl.remove_token tid).1 := by
  unfold TimeSlot.remove_token
  split
  · rename_i hmem0
    have hmem : tid ∈ sl.tokens := by simpa using hmem0
    have hlen : sl.tokens.length = (sl.tokens.erase tid).length + 1 := by
      have := List.length_erase_of_mem hmem
      have hpos : 0 < sl.tokens.length := List.length_pos.mpr
        (List.ne_nil_of_mem hmem)
      omega
    constructor
    · simp only []
      rw [h.1, hlen]
      push_cast
      ring
    · have := h.2
      simp only []
      omega
  · exact h

theorem slotInv_add_to_waitlist {sl : TimeSlot} (tid : Nat) (h : slotInv sl) :
    slotInv (sl.add_to_waitlist tid).1 := by
  unfold TimeSlot.add_to_waitlist
  split
  · exact h
  · exact h

theorem slotInv_remove_from_waitlist {sl : TimeSlot} (tid : Nat) (h : slotInv sl) :
    slotInv (sl.remove_from_waitlist tid).1 := by
  unfold TimeSlot.remove_from_waitlist
  split
  · exact h
  · exact h

theorem find_slot_slotInv {st : DataStore} {did date : Nat} {t : Int}
    {slot : TimeSlot} (h : storeInv st)
    (heq : st.find_slot_by_time did date t = some slot) : slotInv slot := by
  unfold DataStore.find_slot_by_time at heq
  rcases Option.map_eq_some'.mp heq with ⟨p, hfind, hp2⟩
  have hmem := List.mem_of_find?_eq_some hfind
  rw [← hp2]
  exact h p hmem

theorem get_slot_slotInv {st : DataStore} {sid : Nat} {slot : TimeSlot}
    (h : storeInv st) (heq : st.get_time_slot sid = some slot) : slotInv slot :=
  h (sid, slot) (alGet_mem _ _ _ heq)



theorem promote_preserves (slot_id : Nat) (s : SrvState) (h : storeInv s.store) :
    storeInv (promote_from_waitlist slot_id s).1.store := by
  unfold promote_from_waitlist
  dsimp only
  split
  · exact h
  · split
    · rename_i token slot heq1 heq2
      exact storeInv_add_token _ (storeInv_set_slot h
        (slotInv_add_token _ (slotInv_remove_from_waitlist _
          (get_slot_slotInv h heq2))))
    · exact h

theorem cancel_preserves (tid : Nat) (s : SrvState) (h : storeInv s.store) :
    storeInv (cancel_token tid s).1.store := by
  unfold cancel_token
  dsimp only
  split
  · exact h
  · split
    · exact h
    · split
      · exact h
      · rename_i slot heq
        split
        · exact promote_preserves _ _ (storeInv_add_token _
            (storeInv_set_slot h (slotInv_remove_token _
              (get_slot_slotInv h heq))))
        · split
          · exact storeInv_add_token _ (storeInv_set_slot h
              (slotInv_remove_from_waitlist _ (get_slot_slotInv h heq)))
          · exact h

theorem no_show_preserves (tid : Nat) (s : SrvState) (h : storeInv s.store) :
    storeInv (mark_no_show tid s).1.store := by
  unfold mark_no_show
  dsimp only
  split
  · exact h
  · split
    · exact h
    · split
      · exact h
      · rename_i slot heq
        exact promote_preserves _ _ (storeInv_add_token _
          (storeInv_set_slot h (slotInv_remove_token _
            (get_slot_slotInv h heq))))

theorem demote_preserves (tid : Nat) (s : SrvState) (h : storeInv s.store) :
    storeInv (demote_token tid s).1.store := by
  unfold demote_token
  dsimp only
  split
  · exact h
  · split
    · exact h
    · split
      · exact h
      · rename_i slot heq
        exact storeInv_add_token _ (storeInv_set_slot h
          (slotInv_add_to_waitlist _ (slotInv_remove_token _
            (get_slot_slotInv h heq))))

theorem complete_preserves (tid : Nat) (s : SrvState) (h : storeInv s.store) :
    storeInv (complete_token tid s).1.store := by
  unfold complete_token
  dsimp only
  split
  · exact h
  · split
    · exact h
    · exact storeInv_add_token _ h

theorem patient_step_preserves (pd : PatientData) (s : SrvState)
    (h : storeInv s.store) :
    storeInv (get_or_create_patient pd s).2.store := by
  unfold get_or_create_patient
  dsimp only
  split
  · exact h
  · exact storeInv_add_patient _ h

theorem allocate_preserves (pd : PatientData) (did date : Nat) (time : Int)
    (src : String) (s : SrvState) (h : storeInv s.store) :
    storeInv (allocate_token pd did date time src s).1.store := by
  have hps := patient_step_preserves pd s h
  unfold allocate_token
  dsimp only
  split
  · exact h
  · split
    · exact h
    · split
      · exact hps
      · rename_i slot heq
        split
        · exact storeInv_add_token _ (storeInv_set_slot hps
            (slotInv_add_token _ (find_slot_slotInv hps heq)))
        · exact storeInv_add_token _ (storeInv_set_slot hps
            (slotInv_add_to_waitlist _ (find_slot_slotInv hps heq)))

theorem emergency_preserves (pd : PatientData) (did date : Nat) (time : Int)
    (s : SrvState) (h : storeInv s.store) :
    storeInv (allocate_emergency_token pd did date time s).1.store := by
  have hps := patient_step_preserves pd s h
  unfold allocate_emergency_token
  dsimp only
  split
  · exact hps
  · rename_i slot heq
    split
    · exact storeInv_add_token _ (storeInv_set_slot hps
        (slotInv_add_token _ (find_slot_slotInv hps heq)))
    · split
      · exact hps
      · exact hps
      · rename_i x t0 ts heqg
        split
        · have hd := demote_preserves (maxByPriority t0 ts).id
            ⟨(get_or_create_patient pd s).2.store, QueueManager.empty,
              (get_or_create_patient pd s).2.clock,
              (get_or_create_patient pd s).2.nextId⟩ hps
          split
          · exact hd
          · split
            · exact hd
            · rename_i slotR heqR
              exact storeInv_add_token _ (storeInv_set_slot hd
                (slotInv_add_token _ (get_slot_slotInv hd heqR)))
        · exact storeInv_add_token _ (storeInv_set_slot hps
            (slotInv_add_to_waitlist _ (find_slot_slotInv hps heq)))

theorem applyOp_preserves (op : Op) (s : EngineState) (h : engInv s) :
    engInv (applyOp op s) := by
  cases op with
  | addDoctor did => exact h
  | addSlot sid did date st et cap =>
      refine storeInv_set_slot h ⟨by simp, ?_⟩
      simp
  | allocate pd did date time src =>
      exact allocate_preserves pd did date time src s.toAlloc h
  | allocateEmergency pd did date time =>
      exact emergency_preserves pd did date time s.toAlloc h
  | cancel tid => exact cancel_preserves tid s.toRealloc h
  | noShow tid => exact no_show_preserves tid s.toRealloc h
  | demote tid => exact demote_preserves tid s.toRealloc h
  | complete tid => exact complete_preserves tid s.toRealloc h

theorem run_preserves (ops : List Op) (s : EngineState) (h : engInv s) :
    engInv (run ops s) := by
  induction ops generalizing s with
  | nil => exact h
  | cons op rest ih => exact ih _ (applyOp_preserves op s h)

theorem engInv_init : engInv initState := by
  intro p hp
  simp [initState] at hp

/-- C4: the capacity bound is an invariant. Every engine operation
(allocate, allocateEmergency, cancel, markNoShow, demote, complete —
promote only runs inside cancel/markNoShow — plus the setup operations)
preserves the slot invariant, and consequently after any operation
sequence from the initial empty store every slot satisfies
len(confirmed) ≤ capacity. -/
theorem claim_C4_capacity_invariant :
    (∀ (op : Op) (s : EngineState), engInv s → engInv (applyOp op s)) ∧
    (∀ ops : List Op, ∀ p ∈ (run ops initState).store.time_slots,
      (p.2.tokens.length : Int) ≤ p.2.max_capacity) := by
  constructor
  · exact fun op s h => applyOp_preserves op s h
  · intro ops p hp
    have h1 := (run_preserves ops initState engInv_init p hp).1
    have h2 := (run_preserves ops initState engInv_init p hp).2
    omega

def c4ops : List Op :=
  [.addDoctor 1, .addSlot 100 1 0 540 600 2,
   .allocate ⟨"A", "p1", 30, "M"⟩ 1 0 540 "WALK_IN",
   .allocate ⟨"B", "p2", 31, "F"⟩ 1 0 540 "WALK_IN",
   .allocate ⟨"C", "p3", 32, "M"⟩ 1 0 540 "WALK_IN",
   .cancel 1, .noShow 3]

/-- Witness for C4 on a concrete run mixing setup, allocations to
overflow, a cancellation and a no-show. -/
theorem claim_C4_witness :
    ((100, (⟨100, 1, 540, 600, 0, 2, 0, [], [5]⟩ : TimeSlot)) ∈
      (run c4ops initState).store.time_slots) ∧
    ((([] : List Nat).length : Int) ≤ 2) :=
  ⟨by decide, claim_C4_capacity_invariant.2 c4ops
    (100, ⟨100, 1, 540, 600, 0, 2, 0, [], [5]⟩) (by decide)⟩



theorem sorted_sortWaitlist (l : List WEntry) :
    List.Sorted keyLe (sortWaitlist l) :=
  List.sorted_insertionSort keyLe l

def qmSortedInv (qm : QueueManager) : Prop :=
  ∀ p ∈ qm.waitlists, List.Sorted keyLe p.2

theorem qmSortedInv_add (qm : QueueManager) (slot tid : Nat) (prio : Int)
    (now : Nat) (h : qmSortedInv qm) :
    qmSortedInv (qm.add_to_waitlist slot tid prio now).1 := by
  intro p hp
  unfold QueueManager.add_to_waitlist at hp
  dsimp only at hp
  rcases mem_alSet _ _ _ p hp with h2 | h2
  · rw [h2]
    exact sorted_sortWaitlist _
  · exact h p h2

theorem qmSortedInv_remove (qm : QueueManager) (slot tid : Nat)
    (h : qmSortedInv qm) :
    qmSortedInv (qm.remove_from_waitlist slot tid).1 := by
  intro p hp
  unfold QueueManager.remove_from_waitlist at hp
  cases heq : alGet qm.waitlists slot with
  | none =>
      rw [heq] at hp
      exact h p hp
  | some l =>
      rw [heq] at hp
      dsimp only at hp
      rcases mem_alSet _ _ _ p hp with h2 | h2
      · rw [h2]
        exact List.Pairwise.filter _ (h (slot, l) (alGet_mem _ _ _ heq))
      · exact h p h2

theorem runQ_go_sorted (ops : List QOp) (st : QState) (h : qmSortedInv st.qm) :
    qmSortedInv (ops.foldl (fun s op => applyQOp op s) st).qm := by
  induction ops generalizing st with
  | nil => exact h
  | cons op rest ih =>
      refine ih _ ?_
      cases op with
      | enq slot tid prio => exact qmSortedInv_add _ _ _ _ _ h
      | rem slot tid => exact qmSortedInv_remove _ _ _ h

theorem findIdx?_mem_pred {α : Type} (p : α → Bool) (l : List α)
    (h : ∃ x ∈ l, p x = true) :
    ∃ (i : Nat) (hi : i < l.length), l.findIdx? p = some i ∧
      p (l.get ⟨i, hi⟩) = true := by
  induction l with
  | nil => simp at h
  | cons a rest ih =>
      by_cases hpa : p a = true
      · exact ⟨0, by simp, by simp [List.findIdx?_cons, hpa], by simpa using hpa⟩
      · have hex : ∃ x ∈ rest, p x = true := by
          rcases h with ⟨x, hx, hpx⟩
          rcases List.mem_cons.mp hx with rfl | hx2
          · exact absurd hpx hpa
          · exact ⟨x, hx2, hpx⟩
        obtain ⟨i, hi, heq, hp⟩ := ih hex
        refine ⟨i + 1, by simpa using hi, ?_, by simpa using hp⟩
        simp [List.findIdx?_cons, hpa, heq]

theorem mem_sortWaitlist (l : List WEntry) (e : WEntry) :
    e ∈ sortWaitlist l ↔ e ∈ l :=
  (List.perm_insertionSort keyLe l).mem_iff

theorem enqueue_pos (qm : QueueManager) (slot tid : Nat) (prio : Int)
    (now : Nat) :
    ∃ (l : List WEntry) (i : Nat) (hi : i < l.length),
      alGet (qm.add_to_waitlist slot tid prio now).1.waitlists slot = some l ∧
      List.Sorted keyLe l ∧
      (qm.add_to_waitlist slot tid prio now).2 = i + 1 ∧
      (l.get ⟨i, hi⟩).token_id = tid := by
  unfold QueueManager.add_to_waitlist
  dsimp only
  have hmem : (⟨tid, prio, now⟩ : WEntry) ∈
      sortWaitlist ((alGet qm.waitlists slot).getD [] ++ [⟨tid, prio, now⟩]) := by
    rw [mem_sortWaitlist]
    simp
  have hex : ∃ x ∈ sortWaitlist ((alGet qm.waitlists slot).getD [] ++
      [⟨tid, prio, now⟩]), (x.token_id == tid) = true := ⟨_, hmem, by simp⟩
  obtain ⟨i, hi, heq, hp⟩ := findIdx?_mem_pred _ _ hex
  refine ⟨_, i, hi, alGet_alSet_self _ _ _, sorted_sortWaitlist _, ?_,
    by simpa using hp⟩
  simp [heq]

/-- C5: the per-slot waitlist ordering invariant. After any interleaving
of enqueue and remove operations from the empty QueueManager, every
slot's waitlist is sorted ascending by (priorityRank, arrivalTimestamp)
(lower rank first, ties by earlier arrival), and the 1-indexed position
returned by enqueue is the enqueued token's position in that ordering. -/
theorem claim_C5_waitlist_ordering :
    (∀ ops : List QOp, ∀ p ∈ (runQ ops).qm.waitlists, List.Sorted keyLe p.2) ∧
    (∀ (ops : List QOp) (slot tid : Nat) (prio : Int),
      (∀ e ∈ (alGet (runQ ops).qm.waitlists slot).getD [], ¬ e.token_id = tid) →
      ∃ (l : List WEntry) (i : Nat) (hi : i < l.length),
        alGet ((runQ ops).qm.add_to_waitlist slot tid prio
          (runQ ops).clock).1.waitlists slot = some l ∧
        List.Sorted keyLe l ∧
        ((runQ ops).qm.add_to_waitlist slot tid prio (runQ ops).clock).2 =
          i + 1 ∧
        (l.get ⟨i, hi⟩).token_id = tid) := by
  constructor
  · intro ops
    refine runQ_go_sorted ops ⟨QueueManager.empty, 0⟩ ?_
    intro p hp
    simp [QueueManager.empty] at hp
  · intro ops slot tid prio _
    exact enqueue_pos _ _ _ _ _

def c5ops : List QOp := [.enq 1 10 5, .enq 1 11 3]

/-- Witness for C5: enqueue ranks 5 then 3, then enqueue a fresh token at
rank 4; it lands between them at position 2 of the sorted waitlist. -/
theorem claim_C5_witness :
    (∀ e ∈ (alGet (runQ c5ops).qm.waitlists 1).getD [], ¬ e.token_id = 12) ∧
    (∃ (l : List WEntry) (i : Nat) (hi : i < l.length),
      alGet ((runQ c5ops).qm.add_to_waitlist 1 12 4
        (runQ c5ops).clock).1.waitlists 1 = some l ∧
      List.Sorted keyLe l ∧
      ((runQ c5ops).qm.add_to_waitlist 1 12 4 (runQ c5ops).clock).2 = i + 1 ∧
      (l.get ⟨i, hi⟩).token_id = 12) :=
  ⟨by decide, claim_C5_waitlist_ordering.2 c5ops 1 12 4 (by decide)⟩

end OPD
